import Mathlib

/-!
Shallow embedding of the note-to-quote bot core
(src/bot/src/note_to_quote_bot/main.py).

Python strings are modelled as Lean `String` with character-list based
helpers for the string operations the source uses (`in`, `replace`,
`startswith`, `split`).  Python `set` objects are modelled as
`Finset String`.  Python exceptions that escape a function are modelled
with `Except String`, the string being the exception text the source
matches on.  The external world (relay fetches, the headless browser, the
image host) is an explicit oracle record, keyed on exactly the data the
source passes to it.
-/

deriving instance DecidableEq for Except

namespace NoteToQuote

/-- Model of the Python substring test (the `in` operator on `str`),
over character lists: does `pat` occur inside `l`? -/
def subOf (pat : List Char) : List Char → Bool
  | [] => pat.isEmpty
  | c :: rest => pat.isPrefixOf (c :: rest) || subOf pat rest

/-- Python `pat in s` for strings. -/
def strContains (s pat : String) : Bool :=
  subOf pat.toList s.toList

/-- Model of Python `str.replace` (all occurrences, scanning left to
right, continuing after each replaced segment).  `skip` counts input
characters still to drop because they belong to an already replaced
occurrence, which keeps the recursion structural.  The source only uses
a non-empty pattern (`"wss://"`); for an empty pattern this model
differs from Python (which would interleave the replacement
everywhere). -/
def replaceAllGo (pat rep : List Char) : List Char → Nat → List Char
  | [], _ => []
  | _ :: rest, n + 1 => replaceAllGo pat rep rest n
  | c :: rest, 0 =>
    if pat ≠ [] ∧ pat.isPrefixOf (c :: rest) = true then
      rep ++ replaceAllGo pat rep rest (pat.length - 1)
    else
      c :: replaceAllGo pat rep rest 0

/-- Python `s.replace(pat, rep)` on strings. -/
def strReplace (s pat rep : String) : String :=
  String.mk (replaceAllGo pat.toList rep.toList s.toList 0)

/-- Python `s.startswith(pat)`. -/
def strStartsWith (s pat : String) : Bool :=
  pat.toList.isPrefixOf s.toList

/-- Python `s.split(",")` over character lists. -/
def splitOnComma : List Char → List (List Char)
  | [] => [[]]
  | c :: rest =>
    let r := splitOnComma rest
    if c = ',' then [] :: r
    else
      match r with
      | [] => [[c]]
      | h :: t => (c :: h) :: t

/-- Python `s.split(",")` on strings. -/
def strSplitComma (s : String) : List String :=
  (splitOnComma s.toList).map String.mk

/-- An incoming signed event as the source reads it: the id in its two
renderings used by the code (`to_hex` for the render step, `to_bech32`
for dedup keys and file names), the author public key in bech32 form,
the content text, and the raw tag vectors. -/
structure Event where
  id_hex : String
  id_bech32 : String
  author_bech32 : String
  content : String
  tags : List (List String)
deriving DecidableEq

/-- Compiled-in default write relays (main.py lines 32-37). -/
def WRITE_RELAYS : List String :=
  ["wss://strfry.felixzieger.de",
   "wss://relay.damus.io",
   "wss://nos.lol",
   "wss://nostr.mom"]

/-- Compiled-in default read relays (main.py lines 39-45). -/
def READ_RELAYS : List String :=
  ["wss://relay.nostr.band",
   "wss://relay.nostr.bg",
   "wss://nostr.bitcoiner.social",
   "wss://relay.snort.social",
   "wss://purplepag.es"]

/-- Outcome of one headless-browser session of `generate_quote_picture`,
keyed by the page URL the code navigates to and the event id it fills
into the input field.  `fetch_error` is the console message
"Error fetching Nostr event" that the code turns into the exception
"Event not found"; `no_input`, `no_button`, `no_canvas` are the
early-return branches of the source; `canvas d` means the canvas
produced the data URL `d`. -/
inductive PageOutcome where
  | no_input
  | no_button
  | fetch_error
  | no_canvas
  | canvas (dataUrl : String)
deriving DecidableEq

/-- Oracle for the rendering world: the browser session outcome for a
given (page URL, filled event id) pair, and the image-host upload result
for a given base64 payload (`.error` is a raised exception text, as in
`upload_to_imgbb`). -/
structure RenderWorld where
  page : String → String → PageOutcome
  upload : String → Except String String

/-- Oracle for the relay network as `get_parent_note` sees it:
whether `EventId.parse` accepts a tag value, and the list of events a
point lookup on that id returns within the 5 second timeout. -/
structure World where
  parse_ok : String → Bool
  fetch : String → List Event
  render : RenderWorld

/-- Embedding of `generate_quote_picture` (main.py lines 121-242).
The `text` parameter is carried exactly as in the source, whose body
never uses it.  Returns `.ok (some url)` for a successful render and
upload, `.ok none` where the source returns `None` (tooling failures),
and `.error "Event not found"` where the source re-raises that
exception.  Any exception raised inside the body whose text lacks
"Event not found" is swallowed into `None` by the except block of the
source, which this model reproduces. -/
def generate_quote_picture (w : RenderWorld) (text event_id relay_url : String) :
    Except String (Option String) :=
  let goto_url := "https://note-to-quote.vercel.app/?r=" ++ relay_url
  match w.page goto_url event_id with
  | .no_input => .ok none
  | .no_button => .ok none
  | .fetch_error => .error "Event not found"
  | .no_canvas => .ok none
  | .canvas dataUrl =>
    if strStartsWith dataUrl "data:image/png" = false then .ok none
    else
      match (strSplitComma dataUrl).get? 1 with
      | none => .ok none
      | some b64 =>
        match w.upload b64 with
        | .ok url => .ok (some url)
        | .error msg =>
          if strContains msg "Event not found" then .error "Event not found"
          else .ok none

/-- Embedding of the tag loop of `get_parent_note` (main.py lines
54-73): scan all tags; for each `e` tag parse its value and fetch; the
first fetch that returns events ends the loop with that content; after
the loop, a tag-less event yields its own content, otherwise `None`.
`.error` models an exception escaping (IndexError on a short tag vector,
or `EventId.parse` failing). -/
def get_parent_note_aux (w : World) (evContent : String) :
    List (List String) → Bool → Except String (Option String)
  | [], hasE => if hasE then .ok none else .ok (some evContent)
  | [] :: _, _ => .error "list index out of range"
  | (t0 :: rest) :: ts, hasE =>
    if t0 = "e" then
      match rest with
      | [] => .error "list index out of range"
      | pid :: _ =>
        if w.parse_ok pid then
          match w.fetch pid with
          | [] => get_parent_note_aux w evContent ts true
          | e :: _ => .ok (some e.content)
        else .error "EventId parse failed"
    else get_parent_note_aux w evContent ts hasE

/-- Embedding of `get_parent_note` (main.py lines 48-73). -/
def get_parent_note (w : World) (ev : Event) : Except String (Option String) :=
  get_parent_note_aux w ev.content ev.tags false

/-- Embedding of `get_parent_relay` (main.py lines 111-118): the value
of the first `r` tag, or the hardcoded fallback. -/
def get_parent_relay : List (List String) → Except String String
  | [] => .ok "relay.damus.io"
  | [] :: _ => .error "list index out of range"
  | (t0 :: rest) :: ts =>
    if t0 = "r" then
      match rest with
      | [] => .error "list index out of range"
      | u :: _ => .ok u
    else get_parent_relay ts

/-- First `e`-tag value of an event, as the loop at main.py lines
328-334 computes it (with its `break` after the first hit).
`.ok none` means no `e` tag at all. -/
def first_e_value : List (List String) → Except String (Option String)
  | [] => .ok none
  | [] :: _ => .error "list index out of range"
  | (t0 :: rest) :: ts =>
    if t0 = "e" then
      match rest with
      | [] => .error "list index out of range"
      | pid :: _ => .ok (some pid)
    else first_e_value ts

/-- Parent id derivation of `handle_event` (main.py lines 327-342):
the first `e`-tag value if present and truthy; the event id in hex if
no `e` tag (root note); `.ok none` models the bare `return` taken when
the first `e`-tag value is falsy (empty string). -/
def derive_parent_id (ev : Event) : Except String (Option String) :=
  match first_e_value ev.tags with
  | .error msg => .error msg
  | .ok none => .ok (some ev.id_hex)
  | .ok (some pid) => if pid = "" then .ok none else .ok (some pid)

/-- Whether a tag vector is one the source can scan without an
IndexError: non-empty, and carrying a value when its type is `r`. -/
def wellFormedTag : List String → Bool
  | [] => false
  | ["r"] => false
  | _ => true

/-- Value field of a tag vector (index 1), if present. -/
def tag_url : List String → Option String
  | _ :: u :: _ => some u
  | _ => none

/-- Whether a tag vector contributes its relay URL to the write set in
`get_user_relays`: an `r` tag with no marker, with the marker "write",
or with any marker other than "read". -/
def tag_writes : List String → Bool
  | [] => false
  | [_] => false
  | t0 :: _ :: ms =>
    if t0 = "r" then
      match ms with
      | [] => true
      | m :: _ => !(m = "read")
    else false

/-- Whether a tag vector contributes its relay URL to the read set in
`get_user_relays`: an `r` tag with no marker, with the marker "read",
or with any marker other than "write". -/
def tag_reads : List String → Bool
  | [] => false
  | [_] => false
  | t0 :: _ :: ms =>
    if t0 = "r" then
      match ms with
      | [] => true
      | m :: _ => !(m = "write")
    else false

/-- Tag scan of `get_user_relays` (main.py lines 254-272), with the
accumulated write and read sets threaded explicitly.  Python `set`
objects become `Finset String`; `.error` models an IndexError on a
short tag vector. -/
def get_user_relays_aux :
    List (List String) → Finset String → Finset String →
      Except String (Finset String × Finset String)
  | [], ws, rs => .ok (ws, rs)
  | [] :: _, _, _ => .error "list index out of range"
  | (t0 :: rest) :: ts, ws, rs =>
    if t0 = "r" then
      match rest with
      | [] => .error "list index out of range"
      | url :: markers =>
        match markers with
        | [] => get_user_relays_aux ts (insert url ws) (insert url rs)
        | marker :: _ =>
          if marker = "write" then get_user_relays_aux ts (insert url ws) rs
          else if marker = "read" then get_user_relays_aux ts ws (insert url rs)
          else get_user_relays_aux ts (insert url ws) (insert url rs)
    else get_user_relays_aux ts ws rs

/-- Embedding of `get_user_relays` (main.py lines 245-274): start from
the compiled-in defaults and fold the event tags over them.  The Python
function returns `list(write_relays), list(read_relays)` in an
unspecified set iteration order; the model keeps the sets themselves,
which also captures the deduplication the source gets from `set`
semantics. -/
def get_user_relays (tags : List (List String)) :
    Except String (Finset String × Finset String) :=
  get_user_relays_aux tags WRITE_RELAYS.toFinset READ_RELAYS.toFinset

/-- Local bot state as `handle_event` observes and mutates it: the keys
of the module-level `processed_events` dictionary, and the set of event
ids (bech32) for which a `events/reply_to_<id>.json` file exists. -/
structure BotState where
  processed : Finset String
  saved : Finset String
deriving DecidableEq

/-- A reply transmitted by `handle_event`: its content and the event
the builder threads it onto (`text_note_reply(..., reply_to=event)`). -/
structure SentNote where
  content : String
  reply_to : Event
deriving DecidableEq

/-- Observable result of one `handle_event` run: the bot state after
the call, the replies sent, whether the parent resolver and the
renderer were invoked, and the read/write relay sets the per-event
reply client was configured with (empty when the run returned before
the client was configured). -/
structure HandleResult where
  state : BotState
  sends : List SentNote
  resolver_called : Bool
  render_called : Bool
  client_read : Finset String
  client_write : Finset String
deriving DecidableEq

/-- Outcome of the inner try block of `handle_event` (main.py lines
326-359): a bare `return`, a computed reply content, or an exception
propagating to the except block. -/
inductive InnerOutcome where
  | ret
  | content (s : String)
  | exc (msg : String)
deriving DecidableEq

/-- The inner try block of `handle_event` (main.py lines 326-359):
derive the parent id, pick the relay hint and strip its scheme, call
the renderer, and on success compose
`f"{requester_pubkey} \n\n{image_url}"`.  The Bool records whether the
renderer was reached. -/
def inner_try (w : World) (ev : Event) (parent_content : String) :
    Bool × InnerOutcome :=
  match derive_parent_id ev with
  | .error msg => (false, .exc msg)
  | .ok none => (false, .ret)
  | .ok (some parent_id) =>
    match get_parent_relay ev.tags with
    | .error msg => (false, .exc msg)
    | .ok relay0 =>
      let relay_url := strReplace relay0 "wss://" ""
      match generate_quote_picture w.render parent_content parent_id relay_url with
      | .error msg => (true, .exc msg)
      | .ok none => (true, .ret)
      | .ok (some u) =>
        if u = "" then (true, .ret)
        else (true, .content (ev.author_bech32 ++ " \n\n" ++ u))

/-- The except block of `handle_event` (main.py lines 360-366) applied
to an inner outcome: an exception whose text holds "Event not found"
becomes the apology reply content; any other exception and the bare
`return` produce no reply. -/
def reply_of_outcome (ev : Event) : InnerOutcome → Option String
  | .ret => none
  | .content s => some s
  | .exc msg =>
    if strContains msg "Event not found" then
      some (ev.author_bech32 ++ " Sorry, I couldn't find the event you want to quote")
    else none

/-- Embedding of `handle_event` (main.py lines 277-391).  `pub` is
`keys.public_key().to_bech32()`.  Control flow, in source order:
dedup short-circuit, self-author short-circuit, relay derivation and
reply-client configuration (the role inversion of lines 298-303),
saved-reply replay, parent resolution, the inner try block, reply
composition, local persist (the file write of line 377), transmission,
and the final dedup mark.  `send_event_builder` is modelled as the
capability of spec section 6: it returns per-relay outcomes and the
mark on line 386 happens regardless of them.  `.error` models an
exception escaping `handle_event` into the poll loop. -/
def handle_event (w : World) (pub : String) (ev : Event) (st : BotState) :
    Except String HandleResult :=
  let event_id := ev.id_bech32
  if event_id ∈ st.processed then
    .ok ⟨st, [], false, false, ∅, ∅⟩
  else if ev.author_bech32 = pub then
    .ok ⟨st, [], false, false, ∅, ∅⟩
  else
    match get_user_relays ev.tags with
    | .error msg => .error msg
    | .ok (uw, ur) =>
      if event_id ∈ st.saved then
        .ok ⟨⟨insert event_id st.processed, st.saved⟩, [], false, false, uw, ur⟩
      else
        match get_parent_note w ev with
        | .error msg => .error msg
        | .ok none =>
          .ok ⟨⟨insert event_id st.processed, st.saved⟩, [], true, false, uw, ur⟩
        | .ok (some parent_content) =>
          if parent_content = "" then
            .ok ⟨⟨insert event_id st.processed, st.saved⟩, [], true, false, uw, ur⟩
          else
            match inner_try w ev parent_content with
            | (rc, out) =>
              match reply_of_outcome ev out with
              | none => .ok ⟨st, [], true, rc, uw, ur⟩
              | some reply_content =>
                .ok ⟨⟨insert event_id st.processed, insert event_id st.saved⟩,
                     [⟨reply_content, ev⟩], true, rc, uw, ur⟩

/-! Concrete worlds, events and results used by the witness and
counterexample theorems below. -/

/-- A root event serving as resolved parent in the scenario worlds. -/
def parentA : Event := ⟨"ha", "nevent1a", "npub1anna", "Hello world", []⟩

/-- A root event with content differing from parentA, reachable under
the id the scenario worlds choose for it. -/
def parentB : Event := ⟨"hb", "nevent1bb", "npub1beth", "B-content", []⟩

/-- World where the lookup of "idA" succeeds and the browser renders a
canvas whose upload yields a fixed image URL. -/
def demoWorld : World :=
  { parse_ok := fun _ => true
    fetch := fun s => if s = "idA" then [parentA] else []
    render :=
      { page := fun url fid =>
          if url = "https://note-to-quote.vercel.app/?r=relay.damus.io" ∧ fid = "idA" then
            PageOutcome.canvas "data:image/png;base64,AAA"
          else PageOutcome.no_canvas
        upload := fun b =>
          if b = "AAA" then .ok "https://img.example/x.png" else .error "boom" } }

/-- World where every relay lookup returns nothing and the browser
session never yields a canvas (a pure tooling failure). -/
def noCanvasWorld : World :=
  { parse_ok := fun _ => true
    fetch := fun _ => []
    render :=
      { page := fun _ _ => PageOutcome.no_canvas
        upload := fun _ => .error "boom" } }

/-- World where the lookup of "idA" succeeds but the render site
reports its fetch error for every request. -/
def notFoundWorld : World :=
  { parse_ok := fun _ => true
    fetch := fun s => if s = "idA" then [parentA] else []
    render :=
      { page := fun _ _ => PageOutcome.fetch_error
        upload := fun _ => .ok "unused" } }

/-- World where only the id of the second e-tag of evTwo resolves. -/
def twoTagWorld : World :=
  { parse_ok := fun _ => true
    fetch := fun s => if s = "id2" then [parentB] else []
    render := noCanvasWorld.render }

/-- World where the id of the first e-tag of evTwo resolves. -/
def firstTagWorld : World :=
  { parse_ok := fun _ => true
    fetch := fun s => if s = "id1" then [parentB] else []
    render := noCanvasWorld.render }

/-- A root mentioning event (no tags at all). -/
def evRoot : Event := ⟨"rhex", "nevent1root", "npub1carol", "hello", []⟩

/-- A mentioning event replying to the event with id "idA". -/
def evReply : Event := ⟨"bhex", "nevent1b", "npub1bob", "quote this", [["e", "idA"]]⟩

/-- A mentioning event with two reply-reference tags. -/
def evTwo : Event := ⟨"evhex", "nevent1two", "npub1alice", "hi", [["e", "id1"], ["e", "id2"]]⟩

/-- A mentioning event with a relay-hint tag but no reply-reference. -/
def evNoE : Event := ⟨"hex6", "nevent1six", "npub1dan", "root content", [["r", "wss://x"]]⟩

/-- A mentioning event declaring a relay with an explicit write marker. -/
def evWriteTag : Event :=
  ⟨"whex", "nevent1w", "npub1fay", "hi there", [["r", "wss://userrelay.example", "write"]]⟩

/-- A mentioning event whose id is already in the processed table in
the idempotence scenario. -/
def evDone : Event := ⟨"dh", "nevent1done", "npub1gus", "x", []⟩

/-- A mentioning event whose saved-reply file already exists in the
crash-recovery scenario. -/
def evSaved : Event := ⟨"sh", "nevent1s", "npub1eve", "y", []⟩

/-- Result of handling evRoot in noCanvasWorld: the renderer was
reached and failed, nothing was sent, and the id was not recorded. -/
def resRootFail : HandleResult :=
  ⟨⟨∅, ∅⟩, [], true, true, WRITE_RELAYS.toFinset, READ_RELAYS.toFinset⟩

/-- Result of handling evReply in demoWorld: the rendered reply was
sent, threaded onto evReply, and the id was recorded. -/
def resReplySent : HandleResult :=
  ⟨⟨{"nevent1b"}, {"nevent1b"}⟩,
   [⟨"npub1bob \n\nhttps://img.example/x.png", evReply⟩],
   true, true, WRITE_RELAYS.toFinset, READ_RELAYS.toFinset⟩

/-- Result of handling evReply in notFoundWorld: the apology reply was
sent, threaded onto evReply, and the id was recorded. -/
def resApology : HandleResult :=
  ⟨⟨{"nevent1b"}, {"nevent1b"}⟩,
   [⟨"npub1bob Sorry, I couldn't find the event you want to quote", evReply⟩],
   true, true, WRITE_RELAYS.toFinset, READ_RELAYS.toFinset⟩

/-- Result of handling evReply in noCanvasWorld: the bot's own parent
resolution found nothing, so the id was recorded silently with no
reply at all. -/
def resSilent : HandleResult :=
  ⟨⟨{"nevent1b"}, ∅⟩, [], true, false, WRITE_RELAYS.toFinset, READ_RELAYS.toFinset⟩

/-- Result of handling evWriteTag in noCanvasWorld: the reply client
reads from the write-marked relay of the author. -/
def resWriteTag : HandleResult :=
  ⟨⟨∅, ∅⟩, [], true, true,
   insert "wss://userrelay.example" WRITE_RELAYS.toFinset, READ_RELAYS.toFinset⟩

/-! Helper lemmas. -/

/-- A substring of `l` is a substring of `pre ++ l`. -/
theorem subOf_append (pat pre l : List Char) (h : subOf pat l = true) :
    subOf pat (pre ++ l) = true := by
  induction pre with
  | nil => simpa using h
  | cons c cs ih => simp [subOf, ih]

/-- The Python substring test is preserved by prepending text. -/
theorem strContains_append (a b pat : String) (h : strContains b pat = true) :
    strContains (a ++ b) pat = true := by
  unfold strContains at h ⊢
  have hab : (a ++ b).toList = a.toList ++ b.toList := by simp [String.toList]
  rw [hab]
  exact subOf_append _ _ _ h

/-- `get_parent_note_aux` ignores tags whose type is not `e`. -/
theorem gpn_aux_skip (w : World) (c t0 : String) (rest : List String)
    (ts : List (List String)) (hasE : Bool) (h0 : t0 ≠ "e") :
    get_parent_note_aux w c ((t0 :: rest) :: ts) hasE =
      get_parent_note_aux w c ts hasE := by
  simp [get_parent_note_aux, h0]

/-- With no `e` tag and no empty tag vector, the scan of
`get_parent_note` falls through and yields the content it was given. -/
theorem gpn_aux_no_e (w : World) (c : String) :
    ∀ tags : List (List String), (∀ t ∈ tags, t ≠ []) →
      (∀ t ∈ tags, t.head? ≠ some "e") →
      get_parent_note_aux w c tags false = .ok (some c) := by
  intro tags
  induction tags with
  | nil => intro _ _; rfl
  | cons t ts ih =>
    intro hne he
    match t with
    | [] => exact absurd rfl (hne [] (by simp))
    | t0 :: rest =>
      have h0 : t0 ≠ "e" := by
        intro h; exact he (t0 :: rest) (by simp) (by simp [h])
      rw [gpn_aux_skip w c t0 rest ts false h0]
      exact ih (fun t ht => hne t (by simp [ht])) (fun t ht => he t (by simp [ht]))

/-- `first_e_value` ignores tags whose type is not `e`. -/
theorem first_e_skip (t0 : String) (rest : List String)
    (ts : List (List String)) (h0 : t0 ≠ "e") :
    first_e_value ((t0 :: rest) :: ts) = first_e_value ts := by
  simp [first_e_value, h0]

/-- With no `e` tag and no empty tag vector, `first_e_value` finds
nothing. -/
theorem first_e_no_e :
    ∀ tags : List (List String), (∀ t ∈ tags, t ≠ []) →
      (∀ t ∈ tags, t.head? ≠ some "e") →
      first_e_value tags = .ok none := by
  intro tags
  induction tags with
  | nil => intro _ _; rfl
  | cons t ts ih =>
    intro hne he
    match t with
    | [] => exact absurd rfl (hne [] (by simp))
    | t0 :: rest =>
      have h0 : t0 ≠ "e" := by
        intro h; exact he (t0 :: rest) (by simp) (by simp [h])
      rw [first_e_skip t0 rest ts h0]
      exact ih (fun t ht => hne t (by simp [ht])) (fun t ht => he t (by simp [ht]))


/-- Shuffling lemma for one insertion step of the relay-set scan. -/
theorem mem_or_shift {ws : Finset String} {X : Prop} (url u : String) :
    ((u = url ∨ u ∈ ws) ∨ X) ↔ (u ∈ ws ∨ (url = u ∨ X)) := by
  constructor
  · rintro ((rfl | hu) | hx)
    · exact Or.inr (Or.inl rfl)
    · exact Or.inl hu
    · exact Or.inr (Or.inr hx)
  · rintro (hu | (rfl | hx))
    · exact Or.inl (Or.inr hu)
    · exact Or.inl (Or.inl rfl)
    · exact Or.inr hx

/-- Membership characterization of the tag scan of `get_user_relays`:
relative to the accumulators it starts from, a URL ends up in the write
(resp. read) set exactly when it was already there or some tag
contributes it under the marker rules of the source. -/
theorem gur_aux_char :
    ∀ (tags : List (List String)) (ws rs w r : Finset String),
      get_user_relays_aux tags ws rs = .ok (w, r) →
      (∀ u, u ∈ w ↔ u ∈ ws ∨ ∃ t ∈ tags, tag_writes t = true ∧ tag_url t = some u) ∧
      (∀ u, u ∈ r ↔ u ∈ rs ∨ ∃ t ∈ tags, tag_reads t = true ∧ tag_url t = some u) := by
  intro tags
  induction tags with
  | nil =>
    intro ws rs w r h
    cases h
    simp
  | cons t ts ih =>
    intro ws rs w r h
    match t with
    | [] => simp [get_user_relays_aux] at h
    | t0 :: rest =>
      by_cases h0 : t0 = "r"
      · subst h0
        match rest with
        | [] => simp [get_user_relays_aux] at h
        | url :: markers =>
          match markers with
          | [] =>
            simp only [get_user_relays_aux, if_true, eq_self_iff_true] at h
            obtain ⟨hw, hr⟩ := ih _ _ _ _ h
            have h1 : tag_writes ("r" :: url :: []) = true := by simp [tag_writes]
            have h1r : tag_reads ("r" :: url :: []) = true := by simp [tag_reads]
            have h2 : tag_url ("r" :: url :: []) = some url := rfl
            constructor
            · intro u
              rw [hw u, Finset.mem_insert, List.exists_mem_cons_iff, h1, h2]
              simp only [Option.some.injEq, true_and]
              exact mem_or_shift url u
            · intro u
              rw [hr u, Finset.mem_insert, List.exists_mem_cons_iff, h1r, h2]
              simp only [Option.some.injEq, true_and]
              exact mem_or_shift url u
          | marker :: ms =>
            by_cases hwm : marker = "write"
            · subst hwm
              simp only [get_user_relays_aux, if_true, eq_self_iff_true] at h
              obtain ⟨hw, hr⟩ := ih _ _ _ _ h
              have h1 : tag_writes ("r" :: url :: "write" :: ms) = true := by
                simp [tag_writes]
              have h1r : tag_reads ("r" :: url :: "write" :: ms) = false := by
                simp [tag_reads]
              have h2 : tag_url ("r" :: url :: "write" :: ms) = some url := rfl
              constructor
              · intro u
                rw [hw u, Finset.mem_insert, List.exists_mem_cons_iff, h1, h2]
                simp only [Option.some.injEq, true_and]
                exact mem_or_shift url u
              · intro u
                rw [hr u, List.exists_mem_cons_iff, h1r]
                simp
            · by_cases hrm : marker = "read"
              · subst hrm
                simp only [get_user_relays_aux, if_true, eq_self_iff_true,
                  if_neg (by decide : ¬(("read" : String) = "write"))] at h
                obtain ⟨hw, hr⟩ := ih _ _ _ _ h
                have h1 : tag_writes ("r" :: url :: "read" :: ms) = false := by
                  simp [tag_writes]
                have h1r : tag_reads ("r" :: url :: "read" :: ms) = true := by
                  simp [tag_reads]
                have h2 : tag_url ("r" :: url :: "read" :: ms) = some url := rfl
                constructor
                · intro u
                  rw [hw u, List.exists_mem_cons_iff, h1]
                  simp
                · intro u
                  rw [hr u, Finset.mem_insert, List.exists_mem_cons_iff, h1r, h2]
                  simp only [Option.some.injEq, true_and]
                  exact mem_or_shift url u
              · simp only [get_user_relays_aux, if_true, eq_self_iff_true,
                  if_neg hwm, if_neg hrm] at h
                obtain ⟨hw, hr⟩ := ih _ _ _ _ h
                have h1 : tag_writes ("r" :: url :: marker :: ms) = true := by
                  simp [tag_writes, hrm]
                have h1r : tag_reads ("r" :: url :: marker :: ms) = true := by
                  simp [tag_reads, hwm]
                have h2 : tag_url ("r" :: url :: marker :: ms) = some url := rfl
                constructor
                · intro u
                  rw [hw u, Finset.mem_insert, List.exists_mem_cons_iff, h1, h2]
                  simp only [Option.some.injEq, true_and]
                  exact mem_or_shift url u
                · intro u
                  rw [hr u, Finset.mem_insert, List.exists_mem_cons_iff, h1r, h2]
                  simp only [Option.some.injEq, true_and]
                  exact mem_or_shift url u
      · simp only [get_user_relays_aux, if_neg h0] at h
        obtain ⟨hw, hr⟩ := ih _ _ _ _ h
        have htw : tag_writes (t0 :: rest) = false := by
          match rest with
          | [] => rfl
          | x :: xs => simp [tag_writes, h0]
        have htr : tag_reads (t0 :: rest) = false := by
          match rest with
          | [] => rfl
          | x :: xs => simp [tag_reads, h0]
        constructor
        · intro u
          rw [hw u, List.exists_mem_cons_iff, htw]
          simp
        · intro u
          rw [hr u, List.exists_mem_cons_iff, htr]
          simp

/-- The parent-note scan passes over a block of tags that are neither
empty nor of type `e`. -/
theorem gpn_aux_pre (w : World) (c : String) :
    ∀ (pre rest : List (List String)) (hasE : Bool),
      (∀ t ∈ pre, t ≠ []) → (∀ t ∈ pre, t.head? ≠ some "e") →
      get_parent_note_aux w c (pre ++ rest) hasE =
        get_parent_note_aux w c rest hasE := by
  intro pre
  induction pre with
  | nil => intro rest hasE _ _; rfl
  | cons t ts ih =>
    intro rest hasE hne he
    match t with
    | [] => exact absurd rfl (hne [] (by simp))
    | t0 :: r0 =>
      have h0 : t0 ≠ "e" := by
        intro h; exact he (t0 :: r0) (by simp) (by simp [h])
      rw [List.cons_append, gpn_aux_skip w c t0 r0 (ts ++ rest) hasE h0]
      exact ih rest hasE (fun t ht => hne t (by simp [ht]))
        (fun t ht => he t (by simp [ht]))

/-- `first_e_value` passes over a block of tags that are neither empty
nor of type `e`. -/
theorem first_e_pre :
    ∀ (pre rest : List (List String)),
      (∀ t ∈ pre, t ≠ []) → (∀ t ∈ pre, t.head? ≠ some "e") →
      first_e_value (pre ++ rest) = first_e_value rest := by
  intro pre
  induction pre with
  | nil => intro rest _ _; rfl
  | cons t ts ih =>
    intro rest hne he
    match t with
    | [] => exact absurd rfl (hne [] (by simp))
    | t0 :: r0 =>
      have h0 : t0 ≠ "e" := by
        intro h; exact he (t0 :: r0) (by simp) (by simp [h])
      rw [List.cons_append, first_e_skip t0 r0 (ts ++ rest) h0]
      exact ih rest (fun t ht => hne t (by simp [ht]))
        (fun t ht => he t (by simp [ht]))

/-- `inner_try` expressed through the renderer outcome once the parent
id and relay hint are pinned down. -/
theorem inner_try_eq (w : World) (ev : Event) (pc pid rel : String)
    (hpid : derive_parent_id ev = .ok (some pid))
    (hrel : get_parent_relay ev.tags = .ok rel) :
    inner_try w ev pc =
      match generate_quote_picture w.render pc pid (strReplace rel "wss://" "") with
      | .error msg => (true, InnerOutcome.exc msg)
      | .ok none => (true, InnerOutcome.ret)
      | .ok (some u) =>
        if u = "" then (true, InnerOutcome.ret)
        else (true, InnerOutcome.content (ev.author_bech32 ++ " \n\n" ++ u)) := by
  simp [inner_try, hpid, hrel]

/-- Big-step inversion of `handle_event` for a run that reaches the
pipeline body (not deduplicated, not self-authored) and terminates
without a propagating exception: exactly one of the four source paths
was taken: saved-reply replay, empty parent resolution, inner try
without a reply, or reply composed and sent. -/
theorem handle_event_inv (w : World) (pub : String) (ev : Event) (st : BotState)
    (res : HandleResult)
    (hres : handle_event w pub ev st = .ok res)
    (hnp : ev.id_bech32 ∉ st.processed) (hself : ev.author_bech32 ≠ pub) :
    ∃ uw ur, get_user_relays ev.tags = .ok (uw, ur) ∧
      ((ev.id_bech32 ∈ st.saved ∧
          res = ⟨⟨insert ev.id_bech32 st.processed, st.saved⟩, [], false, false, uw, ur⟩) ∨
       (ev.id_bech32 ∉ st.saved ∧
          (get_parent_note w ev = .ok none ∨ get_parent_note w ev = .ok (some "")) ∧
          res = ⟨⟨insert ev.id_bech32 st.processed, st.saved⟩, [], true, false, uw, ur⟩) ∨
       (ev.id_bech32 ∉ st.saved ∧ ∃ pc rc out,
          get_parent_note w ev = .ok (some pc) ∧ pc ≠ "" ∧
          inner_try w ev pc = (rc, out) ∧ reply_of_outcome ev out = none ∧
          res = ⟨st, [], true, rc, uw, ur⟩) ∨
       (ev.id_bech32 ∉ st.saved ∧ ∃ pc rc out rcontent,
          get_parent_note w ev = .ok (some pc) ∧ pc ≠ "" ∧
          inner_try w ev pc = (rc, out) ∧ reply_of_outcome ev out = some rcontent ∧
          res = ⟨⟨insert ev.id_bech32 st.processed, insert ev.id_bech32 st.saved⟩,
                 [⟨rcontent, ev⟩], true, rc, uw, ur⟩)) := by
  unfold handle_event at hres
  rw [if_neg hnp, if_neg hself] at hres
  rcases hrel : get_user_relays ev.tags with m | ⟨uw, ur⟩
  · rw [hrel] at hres
    exact Except.noConfusion hres
  · simp only [hrel] at hres
    refine ⟨uw, ur, rfl, ?_⟩
    by_cases hsv : ev.id_bech32 ∈ st.saved
    · rw [if_pos hsv] at hres
      injection hres with h
      exact Or.inl ⟨hsv, h.symm⟩
    · rw [if_neg hsv] at hres
      rcases hpn : get_parent_note w ev with m | pc
      · rw [hpn] at hres
        exact Except.noConfusion hres
      · cases pc with
        | none =>
          simp only [hpn] at hres
          injection hres with h
          exact Or.inr (Or.inl ⟨hsv, Or.inl rfl, h.symm⟩)
        | some c =>
          simp only [hpn] at hres
          by_cases hc : c = ""
          · subst hc
            rw [if_pos rfl] at hres
            injection hres with h
            exact Or.inr (Or.inl ⟨hsv, Or.inr rfl, h.symm⟩)
          · rw [if_neg hc] at hres
            rcases hit : inner_try w ev c with ⟨rc, out⟩
            simp only [hit] at hres
            rcases hro : reply_of_outcome ev out with _ | rcontent
            · simp only [hro] at hres
              injection hres with h
              exact Or.inr (Or.inr (Or.inl ⟨hsv, c, rc, out, rfl, hc, hit, hro, h.symm⟩))
            · simp only [hro] at hres
              injection hres with h
              exact Or.inr (Or.inr (Or.inr ⟨hsv, c, rc, out, rcontent, rfl, hc, hit, hro, h.symm⟩))

/-- Refined inversion for a run that reaches the inner try block: once
the resolved parent content and the inner outcome are pinned down, the
run either sent nothing and left the state alone, or sent exactly the
composed reply and recorded the id. -/
theorem handle_event_body (w : World) (pub : String) (ev : Event) (st : BotState)
    (res : HandleResult) (c : String) (rc : Bool) (out : InnerOutcome)
    (hres : handle_event w pub ev st = .ok res)
    (hnp : ev.id_bech32 ∉ st.processed) (hself : ev.author_bech32 ≠ pub)
    (hsv : ev.id_bech32 ∉ st.saved)
    (hpc : get_parent_note w ev = .ok (some c)) (hc : c ≠ "")
    (hit : inner_try w ev c = (rc, out)) :
    ∃ uw ur, get_user_relays ev.tags = .ok (uw, ur) ∧
      ((reply_of_outcome ev out = none ∧ res = ⟨st, [], true, rc, uw, ur⟩) ∨
       (∃ rcontent, reply_of_outcome ev out = some rcontent ∧
          res = ⟨⟨insert ev.id_bech32 st.processed, insert ev.id_bech32 st.saved⟩,
                 [⟨rcontent, ev⟩], true, rc, uw, ur⟩)) := by
  obtain ⟨uw, ur, hrel, hcase⟩ := handle_event_inv w pub ev st res hres hnp hself
  refine ⟨uw, ur, hrel, ?_⟩
  rcases hcase with ⟨hsv2, _⟩ | ⟨_, hpn, _⟩ | ⟨_, pc, rc2, out2, hpn, hc2, hit2, hro, rfl⟩ |
    ⟨_, pc, rc2, out2, rcontent, hpn, hc2, hit2, hro, rfl⟩
  · exact absurd hsv2 hsv
  · rcases hpn with hpn | hpn <;> rw [hpc] at hpn
    · exact absurd (Except.ok.inj hpn) (by simp)
    · exact absurd (Option.some.inj (Except.ok.inj hpn)) hc
  · rw [hpc] at hpn
    cases Option.some.inj (Except.ok.inj hpn)
    rw [hit] at hit2
    cases hit2
    exact Or.inl ⟨hro, rfl⟩
  · rw [hpc] at hpn
    cases Option.some.inj (Except.ok.inj hpn)
    rw [hit] at hit2
    cases hit2
    exact Or.inr ⟨rcontent, hro, rfl⟩

/-! Claim theorems. -/

/-- C1, counterexample: a run that reaches the pipeline body (the
resolver and the renderer were both invoked) and ends in a renderer
tooling failure finishes without recording the event id as processed,
refuting the claim that the id is recorded regardless of outcome. -/
theorem C1_counterexample :
    handle_event noCanvasWorld "npub1bot" evRoot ⟨∅, ∅⟩ = .ok resRootFail ∧
    resRootFail.resolver_called = true ∧ resRootFail.render_called = true ∧
    evRoot.id_bech32 ∉ resRootFail.state.processed :=
  ⟨rfl, rfl, rfl, by decide⟩

/-- C1 (amended): for a run reaching the pipeline body that finishes
without a propagating exception, the event id is recorded as processed
exactly when the run replayed a saved reply, resolved no usable parent
content, or transmitted a reply (success or apology, regardless of the
per-relay outcomes of the send).  On a renderer or upload tooling
failure none of these hold, the id is not recorded, and the event will
be re-selected by a later poll cycle. -/
theorem C1_processed_mark (w : World) (pub : String) (ev : Event)
    (st : BotState) (res : HandleResult)
    (hres : handle_event w pub ev st = .ok res)
    (hnp : ev.id_bech32 ∉ st.processed) (hself : ev.author_bech32 ≠ pub) :
    ev.id_bech32 ∈ res.state.processed ↔
      (ev.id_bech32 ∈ st.saved ∨ get_parent_note w ev = .ok none ∨
       get_parent_note w ev = .ok (some "") ∨ res.sends ≠ []) := by
  obtain ⟨uw, ur, hrel, hcase⟩ := handle_event_inv w pub ev st res hres hnp hself
  rcases hcase with ⟨hsv, rfl⟩ | ⟨hsv, hpn, rfl⟩ | ⟨hsv, pc, rc, out, hpn, hc, hit, hro, rfl⟩ |
    ⟨hsv, pc, rc, out, rcontent, hpn, hc, hit, hro, rfl⟩
  · simp [hsv]
  · rcases hpn with hpn | hpn <;> simp [hpn]
  · simp [hnp, hsv, hpn, hc]
  · simp

/-- C1 witness: the amended characterization applied to the concrete
tooling-failure run of the counterexample. -/
theorem C1_witness :
    evRoot.id_bech32 ∈ resRootFail.state.processed ↔
      (evRoot.id_bech32 ∈ (⟨∅, ∅⟩ : BotState).saved ∨
       get_parent_note noCanvasWorld evRoot = .ok none ∨
       get_parent_note noCanvasWorld evRoot = .ok (some "") ∨
       resRootFail.sends ≠ []) :=
  C1_processed_mark noCanvasWorld "npub1bot" evRoot ⟨∅, ∅⟩ resRootFail
    rfl (by decide) (by decide)

/-- C2: an event whose id is already in the processed table, or whose
author is the bot itself, is a strict no-op: the state is returned
unchanged, nothing is sent, and neither the resolver nor the renderer
is invoked. -/
theorem C2_idempotent_noop (w : World) (pub : String) (ev : Event) (st : BotState)
    (h : ev.id_bech32 ∈ st.processed ∨ ev.author_bech32 = pub) :
    handle_event w pub ev st = .ok ⟨st, [], false, false, ∅, ∅⟩ := by
  rcases h with h | h
  · simp [handle_event, h]
  · by_cases hp : ev.id_bech32 ∈ st.processed
    · simp [handle_event, hp]
    · simp [handle_event, hp, h]

/-- C2 witness: the no-op applied to a concrete already-processed
event. -/
theorem C2_witness :
    handle_event noCanvasWorld "npub1bot" evDone ⟨{"nevent1done"}, ∅⟩ =
      .ok ⟨⟨{"nevent1done"}, ∅⟩, [], false, false, ∅, ∅⟩ :=
  C2_idempotent_noop noCanvasWorld "npub1bot" evDone ⟨{"nevent1done"}, ∅⟩
    (Or.inl (by decide))

/-- C3: when a saved-reply file exists for an event id that is not yet
processed, the pipeline marks the id processed and returns without
invoking the parent resolver or the renderer and without sending
anything. -/
theorem C3_saved_reply_replay (w : World) (pub : String) (ev : Event) (st : BotState)
    (uw ur : Finset String)
    (hnp : ev.id_bech32 ∉ st.processed) (hself : ev.author_bech32 ≠ pub)
    (hrel : get_user_relays ev.tags = .ok (uw, ur))
    (hsv : ev.id_bech32 ∈ st.saved) :
    handle_event w pub ev st =
      .ok ⟨⟨insert ev.id_bech32 st.processed, st.saved⟩, [], false, false, uw, ur⟩ := by
  simp [handle_event, hnp, hself, hrel, hsv]

/-- C3 witness: the saved-reply replay applied to a concrete state. -/
theorem C3_witness :
    handle_event noCanvasWorld "npub1bot" evSaved ⟨∅, {"nevent1s"}⟩ =
      .ok ⟨⟨insert evSaved.id_bech32 ∅, {"nevent1s"}⟩, [], false, false,
           WRITE_RELAYS.toFinset, READ_RELAYS.toFinset⟩ :=
  C3_saved_reply_replay noCanvasWorld "npub1bot" evSaved ⟨∅, {"nevent1s"}⟩
    WRITE_RELAYS.toFinset READ_RELAYS.toFinset (by decide) (by decide) rfl (by decide)

/-- C4: when `get_user_relays` returns, its write set contains every
compiled-in default write relay and its read set every default read
relay (also for an event with zero relay hints), and membership in each
set is exactly "default or contributed by some r-tag under the marker
rules": a write-marked tag feeds only the write set, a read-marked tag
only the read set, and a tag with no marker or any other marker feeds
both.  The sets are `Finset`s, so the returned collections carry no
duplicate URL, as the source gets from Python set semantics. -/
theorem C4_relay_sets (tags : List (List String)) (w r : Finset String)
    (hrel : get_user_relays tags = .ok (w, r)) :
    (∀ u ∈ WRITE_RELAYS, u ∈ w) ∧ (∀ u ∈ READ_RELAYS, u ∈ r) ∧
    (∀ u, u ∈ w ↔ u ∈ WRITE_RELAYS ∨ ∃ t ∈ tags, tag_writes t = true ∧ tag_url t = some u) ∧
    (∀ u, u ∈ r ↔ u ∈ READ_RELAYS ∨ ∃ t ∈ tags, tag_reads t = true ∧ tag_url t = some u) := by
  obtain ⟨hw, hr⟩ := gur_aux_char tags _ _ w r hrel
  refine ⟨fun u hu => ?_, fun u hu => ?_, fun u => ?_, fun u => ?_⟩
  · rw [hw u]; exact Or.inl (List.mem_toFinset.mpr hu)
  · rw [hr u]; exact Or.inl (List.mem_toFinset.mpr hu)
  · rw [hw u, List.mem_toFinset]
  · rw [hr u, List.mem_toFinset]

/-- C4 witness: the characterization applied to an event with zero
relay-hint tags. -/
theorem C4_witness :
    (∀ u ∈ WRITE_RELAYS, u ∈ WRITE_RELAYS.toFinset) ∧
    (∀ u ∈ READ_RELAYS, u ∈ READ_RELAYS.toFinset) ∧
    (∀ u, u ∈ WRITE_RELAYS.toFinset ↔ u ∈ WRITE_RELAYS ∨
      ∃ t ∈ ([] : List (List String)), tag_writes t = true ∧ tag_url t = some u) ∧
    (∀ u, u ∈ READ_RELAYS.toFinset ↔ u ∈ READ_RELAYS ∨
      ∃ t ∈ ([] : List (List String)), tag_reads t = true ∧ tag_url t = some u) :=
  C4_relay_sets [] WRITE_RELAYS.toFinset READ_RELAYS.toFinset rfl

/-- C5: for a run that reaches the pipeline body, the reply client is
configured with the author's derived write set as the set the bot
reads from and the author's derived read set as the set the bot writes
to; in particular a relay declared with an explicit write marker ends
up in the bot's outbound-read set. -/
theorem C5_relay_role_inversion (w : World) (pub : String) (ev : Event) (st : BotState)
    (res : HandleResult) (uw ur : Finset String)
    (hres : handle_event w pub ev st = .ok res)
    (hnp : ev.id_bech32 ∉ st.processed) (hself : ev.author_bech32 ≠ pub)
    (hrel : get_user_relays ev.tags = .ok (uw, ur)) :
    res.client_read = uw ∧ res.client_write = ur ∧
    (∀ R ms, ("r" :: R :: "write" :: ms) ∈ ev.tags → R ∈ res.client_read) := by
  obtain ⟨uw2, ur2, hrel2, hcase⟩ := handle_event_inv w pub ev st res hres hnp hself
  rw [hrel] at hrel2
  cases Except.ok.inj hrel2
  have hcw : res.client_read = uw ∧ res.client_write = ur := by
    rcases hcase with ⟨_, rfl⟩ | ⟨_, _, rfl⟩ | ⟨_, pc, rc, out, _, _, _, _, rfl⟩ |
      ⟨_, pc, rc, out, rcontent, _, _, _, _, rfl⟩ <;> exact ⟨rfl, rfl⟩
  refine ⟨hcw.1, hcw.2, ?_⟩
  intro R ms hmem
  rw [hcw.1]
  obtain ⟨hw, _⟩ := gur_aux_char ev.tags _ _ uw ur hrel
  rw [hw R]
  refine Or.inr ⟨"r" :: R :: "write" :: ms, hmem, ?_, rfl⟩
  simp [tag_writes]

/-- C5 witness: the inversion applied to a concrete event declaring a
write-marked relay; the relay lands in the client's read set. -/
theorem C5_witness :
    resWriteTag.client_read = insert "wss://userrelay.example" WRITE_RELAYS.toFinset ∧
    resWriteTag.client_write = READ_RELAYS.toFinset ∧
    (∀ R ms, ("r" :: R :: "write" :: ms) ∈ evWriteTag.tags →
      R ∈ resWriteTag.client_read) :=
  C5_relay_role_inversion noCanvasWorld "npub1bot" evWriteTag ⟨∅, ∅⟩ resWriteTag
    (insert "wss://userrelay.example" WRITE_RELAYS.toFinset) READ_RELAYS.toFinset
    rfl (by decide) (by decide) rfl

/-- C6: an event carrying no reply-reference tag (and no degenerate
empty tag vector) resolves to its own content, and the parent id the
renderer receives is the event's own id in hex: the event is treated as
the conversation root. -/
theorem C6_root_detection (w : World) (ev : Event)
    (hne : ∀ t ∈ ev.tags, t ≠ []) (he : ∀ t ∈ ev.tags, t.head? ≠ some "e") :
    get_parent_note w ev = .ok (some ev.content) ∧
    derive_parent_id ev = .ok (some ev.id_hex) := by
  constructor
  · exact gpn_aux_no_e w ev.content ev.tags hne he
  · unfold derive_parent_id
    rw [first_e_no_e ev.tags hne he]

/-- C6 witness: root detection on a concrete event that has a relay
hint but no reply reference. -/
theorem C6_witness :
    get_parent_note noCanvasWorld evNoE = .ok (some evNoE.content) ∧
    derive_parent_id evNoE = .ok (some evNoE.id_hex) :=
  C6_root_detection noCanvasWorld evNoE (by decide) (by decide)

/-- C7, counterexample: with two reply-reference tags whose first id
resolves to nothing while the second resolves, `get_parent_note`
returns the content found under the second tag, refuting the claim
that the fetched parent content always comes from the first e-tag. -/
theorem C7_counterexample :
    get_parent_note twoTagWorld evTwo = .ok (some "B-content") ∧
    first_e_value evTwo.tags = .ok (some "id1") ∧
    twoTagWorld.fetch "id1" = [] :=
  ⟨rfl, rfl, rfl⟩

/-- C7 (amended): the parent id passed to the renderer always comes
from the first e-tag, and the parent content also comes from the first
e-tag whenever the lookup of that tag's id succeeds; only when an
earlier lookup returns nothing does the scan fall through to a later
e-tag. -/
theorem C7_first_tag (w : World) (ev : Event) (pre post : List (List String))
    (pid : String) (ms : List String) (e0 : Event) (es : List Event)
    (hev : ev.tags = pre ++ ("e" :: pid :: ms) :: post)
    (hne : ∀ t ∈ pre, t ≠ []) (he : ∀ t ∈ pre, t.head? ≠ some "e")
    (hparse : w.parse_ok pid = true)
    (hfetch : w.fetch pid = e0 :: es)
    (hpid : pid ≠ "") :
    get_parent_note w ev = .ok (some e0.content) ∧
    derive_parent_id ev = .ok (some pid) := by
  constructor
  · unfold get_parent_note
    rw [hev, gpn_aux_pre w ev.content pre _ false hne he]
    simp [get_parent_note_aux, hparse, hfetch]
  · unfold derive_parent_id
    rw [hev, first_e_pre pre _ hne he]
    simp [first_e_value, hpid]

/-- C7 witness: the amended statement applied to a concrete event with
two e-tags whose first id resolves. -/
theorem C7_witness :
    get_parent_note firstTagWorld evTwo = .ok (some parentB.content) ∧
    derive_parent_id evTwo = .ok (some "id1") :=
  C7_first_tag firstTagWorld evTwo [] [["e", "id2"]] "id1" [] parentB []
    rfl (by decide) (by decide) rfl rfl (by decide)

/-- C8, counterexample: an event whose reply-reference id is absent
from every relay the bot can reach makes the pipeline mark the id
processed and finish with no send at all, refuting the claim that an
apology reply is sent in that situation. -/
theorem C8_counterexample :
    handle_event noCanvasWorld "npub1bot" evReply ⟨∅, ∅⟩ = .ok resSilent ∧
    resSilent.sends = [] ∧ evReply.id_bech32 ∈ resSilent.state.processed :=
  ⟨rfl, rfl, by decide⟩

/-- C8 (amended): when the bot's own parent resolution finds nothing,
the run is silent (no reply, id marked processed); the apology reply,
whose content contains the literal "couldn't find the event you want
to quote", is sent exactly when resolution succeeded but the renderer
raised an error containing "Event not found"; and a renderer or upload
tooling failure (no URL, or an error without that text) sends
nothing. -/
theorem C8_notfound_apology (w : World) (pub : String) (ev : Event) (st : BotState)
    (res : HandleResult) (c pid rel msg : String)
    (hres : handle_event w pub ev st = .ok res)
    (hnp : ev.id_bech32 ∉ st.processed) (hself : ev.author_bech32 ≠ pub)
    (hsv : ev.id_bech32 ∉ st.saved) :
    (get_parent_note w ev = .ok none →
      res.sends = [] ∧ ev.id_bech32 ∈ res.state.processed) ∧
    (get_parent_note w ev = .ok (some c) → c ≠ "" →
      derive_parent_id ev = .ok (some pid) →
      get_parent_relay ev.tags = .ok rel →
      generate_quote_picture w.render c pid (strReplace rel "wss://" "") = .error msg →
      strContains msg "Event not found" = true →
      res.sends = [⟨ev.author_bech32 ++ " Sorry, I couldn't find the event you want to quote", ev⟩] ∧
      strContains (ev.author_bech32 ++ " Sorry, I couldn't find the event you want to quote")
        "couldn't find the event you want to quote" = true) ∧
    (get_parent_note w ev = .ok (some c) → c ≠ "" →
      derive_parent_id ev = .ok (some pid) →
      get_parent_relay ev.tags = .ok rel →
      (generate_quote_picture w.render c pid (strReplace rel "wss://" "") = .ok none ∨
       (generate_quote_picture w.render c pid (strReplace rel "wss://" "") = .error msg ∧
        strContains msg "Event not found" = false)) →
      res.sends = []) := by
  refine ⟨?_, ?_, ?_⟩
  · intro hpn0
    obtain ⟨uw, ur, hrel, hcase⟩ := handle_event_inv w pub ev st res hres hnp hself
    rcases hcase with ⟨hsv2, _⟩ | ⟨_, _, rfl⟩ | ⟨_, pc, rc, out, hpn, _, _, _, _⟩ |
      ⟨_, pc, rc, out, rcontent, hpn, _, _, _, _⟩
    · exact absurd hsv2 hsv
    · exact ⟨rfl, Finset.mem_insert_self _ _⟩
    · rw [hpn0] at hpn
      exact absurd (Except.ok.inj hpn) (by simp)
    · rw [hpn0] at hpn
      exact absurd (Except.ok.inj hpn) (by simp)
  · intro hpc hc hpid hrelay hgen hmsg
    have hit : inner_try w ev c = (true, InnerOutcome.exc msg) := by
      rw [inner_try_eq w ev c pid rel hpid hrelay, hgen]
    obtain ⟨uw, ur, hrel, hcase⟩ :=
      handle_event_body w pub ev st res c true (InnerOutcome.exc msg)
        hres hnp hself hsv hpc hc hit
    rcases hcase with ⟨hro, rfl⟩ | ⟨rcontent, hro, rfl⟩
    · simp [reply_of_outcome, hmsg] at hro
    · simp only [reply_of_outcome, hmsg, if_pos, Option.some.injEq] at hro
      subst hro
      refine ⟨rfl, ?_⟩
      exact strContains_append ev.author_bech32
        " Sorry, I couldn't find the event you want to quote"
        "couldn't find the event you want to quote" (by decide)
  · intro hpc hc hpid hrelay hor
    rcases hor with hgen | ⟨hgen, hmsg⟩
    · have hit : inner_try w ev c = (true, InnerOutcome.ret) := by
        rw [inner_try_eq w ev c pid rel hpid hrelay, hgen]
      obtain ⟨uw, ur, hrel, hcase⟩ :=
        handle_event_body w pub ev st res c true InnerOutcome.ret
          hres hnp hself hsv hpc hc hit
      rcases hcase with ⟨hro, rfl⟩ | ⟨rcontent, hro, rfl⟩
      · rfl
      · simp [reply_of_outcome] at hro
    · have hit : inner_try w ev c = (true, InnerOutcome.exc msg) := by
        rw [inner_try_eq w ev c pid rel hpid hrelay, hgen]
      obtain ⟨uw, ur, hrel, hcase⟩ :=
        handle_event_body w pub ev st res c true (InnerOutcome.exc msg)
          hres hnp hself hsv hpc hc hit
      rcases hcase with ⟨hro, rfl⟩ | ⟨rcontent, hro, rfl⟩
      · rfl
      · simp [reply_of_outcome, hmsg] at hro

/-- C8 witness: the amended statement applied to the concrete world
where resolution succeeds and the render site reports its fetch
error; the apology reply is the single send. -/
theorem C8_witness :
    (get_parent_note notFoundWorld evReply = .ok none →
      resApology.sends = [] ∧ evReply.id_bech32 ∈ resApology.state.processed) ∧
    (get_parent_note notFoundWorld evReply = .ok (some "Hello world") →
      "Hello world" ≠ "" →
      derive_parent_id evReply = .ok (some "idA") →
      get_parent_relay evReply.tags = .ok "relay.damus.io" →
      generate_quote_picture notFoundWorld.render "Hello world" "idA"
        (strReplace "relay.damus.io" "wss://" "") = .error "Event not found" →
      strContains "Event not found" "Event not found" = true →
      resApology.sends =
        [⟨evReply.author_bech32 ++ " Sorry, I couldn't find the event you want to quote",
          evReply⟩] ∧
      strContains (evReply.author_bech32 ++ " Sorry, I couldn't find the event you want to quote")
        "couldn't find the event you want to quote" = true) ∧
    (get_parent_note notFoundWorld evReply = .ok (some "Hello world") →
      "Hello world" ≠ "" →
      derive_parent_id evReply = .ok (some "idA") →
      get_parent_relay evReply.tags = .ok "relay.damus.io" →
      (generate_quote_picture notFoundWorld.render "Hello world" "idA"
        (strReplace "relay.damus.io" "wss://" "") = .ok none ∨
       (generate_quote_picture notFoundWorld.render "Hello world" "idA"
          (strReplace "relay.damus.io" "wss://" "") = .error "Event not found" ∧
        strContains "Event not found" "Event not found" = false)) →
      resApology.sends = []) :=
  C8_notfound_apology notFoundWorld "npub1bot" evReply ⟨∅, ∅⟩ resApology
    "Hello world" "idA" "relay.damus.io" "Event not found"
    rfl (by decide) (by decide) (by decide)

/-- C9, counterexample: on a successful render the composed reply
content is the requester mention, a space, then the two newlines and
the URL; it differs from the claimed mention-immediately-followed-by
separator format. -/
theorem C9_counterexample :
    handle_event demoWorld "npub1bot" evReply ⟨∅, ∅⟩ = .ok resReplySent ∧
    resReplySent.sends.map SentNote.content = ["npub1bob \n\nhttps://img.example/x.png"] ∧
    "npub1bob \n\nhttps://img.example/x.png" ≠ "npub1bob\n\nhttps://img.example/x.png" :=
  ⟨rfl, rfl, by decide⟩

/-- C9 (amended): on a successful render the single transmitted reply
has content `mention ++ " \n\n" ++ url` (one space between the mention
and the separator) and is threaded onto the original mentioning event,
not the resolved parent, and the event id is recorded. -/
theorem C9_reply_composition (w : World) (pub : String) (ev : Event) (st : BotState)
    (res : HandleResult) (c pid rel u : String)
    (hres : handle_event w pub ev st = .ok res)
    (hnp : ev.id_bech32 ∉ st.processed) (hself : ev.author_bech32 ≠ pub)
    (hsv : ev.id_bech32 ∉ st.saved)
    (hpc : get_parent_note w ev = .ok (some c)) (hc : c ≠ "")
    (hpid : derive_parent_id ev = .ok (some pid))
    (hrelay : get_parent_relay ev.tags = .ok rel)
    (hgen : generate_quote_picture w.render c pid (strReplace rel "wss://" "") =
      .ok (some u))
    (hu : u ≠ "") :
    res.sends = [⟨ev.author_bech32 ++ " \n\n" ++ u, ev⟩] ∧
    ev.id_bech32 ∈ res.state.processed := by
  have hit : inner_try w ev c =
      (true, InnerOutcome.content (ev.author_bech32 ++ " \n\n" ++ u)) := by
    rw [inner_try_eq w ev c pid rel hpid hrelay, hgen]
    simp [hu]
  obtain ⟨uw, ur, hrel, hcase⟩ :=
    handle_event_body w pub ev st res c true
      (InnerOutcome.content (ev.author_bech32 ++ " \n\n" ++ u))
      hres hnp hself hsv hpc hc hit
  rcases hcase with ⟨hro, rfl⟩ | ⟨rcontent, hro, rfl⟩
  · simp [reply_of_outcome] at hro
  · simp only [reply_of_outcome, Option.some.injEq] at hro
    subst hro
    exact ⟨rfl, Finset.mem_insert_self _ _⟩

/-- C9 witness: the amended composition applied to the concrete
successful-render world. -/
theorem C9_witness :
    resReplySent.sends =
      [⟨evReply.author_bech32 ++ " \n\n" ++ "https://img.example/x.png", evReply⟩] ∧
    evReply.id_bech32 ∈ resReplySent.state.processed :=
  C9_reply_composition demoWorld "npub1bot" evReply ⟨∅, ∅⟩ resReplySent
    "Hello world" "idA" "relay.damus.io" "https://img.example/x.png"
    rfl (by decide) (by decide) (by decide) rfl (by decide) rfl rfl rfl (by decide)

/-- C10: the render step ignores its source-text argument entirely:
two invocations of `generate_quote_picture` that agree on the event id
and relay URL (and run against the same rendering world) produce the
same outcome whatever texts they receive. -/
theorem C10_render_ignores_text (w : RenderWorld) (t1 t2 event_id relay_url : String) :
    generate_quote_picture w t1 event_id relay_url =
      generate_quote_picture w t2 event_id relay_url := rfl

end NoteToQuote
